import Mathlib

/-!
Verification of the simpleperf `report` command (`simpleperf/cmd_report.cpp`)
against its natural-language specification.

The definitions below are a shallow embedding of `cmd_report.cpp`.  External
collaborators (thread/map registry, symbolizer, record file decoder) are
modelled as oracle functions, exactly as the spec declares them out of scope.
The shared builder base class `SampleTreeBuilder` lives in `sample_tree.h`,
which is not part of this repository snapshot; the few pieces of its glue that
the claims need (insert-or-merge, the per-sample summary update, the
filter-reject path) are modelled from the spec and are marked as such in their
doc comments.  All `uint64_t` arithmetic is modelled on `Nat` with additions
reduced modulo `2 ^ 64`.
-/

namespace Simpleperf

/-- Modulus of `uint64_t` arithmetic. -/
def u64Mod : Nat := 2 ^ 64

/-- Wrapping `uint64_t` addition, as performed by `+=` on the counter fields. -/
def addU64 (a b : Nat) : Nat := (a + b) % u64Mod

/-- A DSO as the report engine sees it: the engine only reads its report path
(`Dso::GetReportPath`).  Whether a dso is the unknown dso is answered by the
thread tree oracle (`ThreadTree::IsUnknownDso`). -/
structure Dso where
  report_path : String
deriving DecidableEq, Repr

/-- A map entry; the engine only dereferences `map->dso`. -/
structure MapEntry where
  dso : Dso
deriving DecidableEq, Repr

/-- A symbol; the engine only reads `symbol->DemangledName()`. -/
structure SymbolT where
  demangled_name : String
deriving DecidableEq, Repr

/-- A thread entry as returned by `ThreadTree::FindThreadOrNew`. -/
structure ThreadEntry where
  pid : Int
  tid : Int
  comm : String
deriving DecidableEq, Repr

/-- The external thread/map registry, modelled as an oracle
(`thread_tree.h` is outside this repository snapshot; the spec lists it as an
external collaborator).  `findMap` is the three-argument overload taking the
in-kernel flag; `findMapNoKernel` is the two-argument overload used for branch
addresses. -/
structure ThreadTree where
  findThreadOrNew : Int → Int → ThreadEntry
  findMap : ThreadEntry → Nat → Bool → MapEntry
  findMapNoKernel : ThreadEntry → Nat → MapEntry
  findSymbol : MapEntry → Nat → SymbolT × Nat
  isUnknownDso : Dso → Bool

/-- The fields of a decoded `SampleRecord` that `cmd_report.cpp` reads:
`time_data.time`, `period_data.period`, `tid_data.pid`, `tid_data.tid`,
`ip_data.ip`, `Cpu()`, and the in-kernel bit of the record header. -/
structure SampleRecord where
  time : Nat
  period : Nat
  pid : Int
  tid : Int
  ip : Nat
  cpu : Int
  in_kernel : Bool
deriving DecidableEq, Repr

/-- One item of a branch stack: from-address, to-address and flags. -/
structure BranchStackItem where
  from_addr : Nat
  to_addr : Nat
  flags : Nat
deriving DecidableEq, Repr

/-- BranchFromEntry from `cmd_report.cpp`: default-initialized with null map
and symbol pointers (modelled as `none`) and zero vaddr and flags. -/
structure BranchFromEntry where
  map : Option MapEntry
  symbol : Option SymbolT
  vaddr_in_file : Nat
  flags : Nat
deriving DecidableEq, Repr

/-- The default-constructed BranchFromEntry. -/
def BranchFromEntry.init : BranchFromEntry :=
  { map := none, symbol := none, vaddr_in_file := 0, flags := 0 }

/-- SampleEntry from `cmd_report.cpp`.  The `map` and `symbol` pointers are
modelled by the (immutable) objects they point to; the callchain child tree is
not needed by any claim and is omitted. -/
structure SampleEntry where
  time : Nat
  period : Nat
  accumulated_period : Nat
  sample_count : Nat
  cpu : Int
  pid : Int
  tid : Int
  thread_comm : String
  map : MapEntry
  symbol : SymbolT
  vaddr_in_file : Nat
  branch_from : BranchFromEntry
deriving DecidableEq, Repr

/-- Running totals and aggregated entries of one `ReportCmdSampleTreeBuilder`.
The entry set of the base class is modelled as a list ordered by insertion. -/
structure BuilderState where
  entries : List SampleEntry
  total_samples : Nat
  total_period : Nat
  total_error_callchains : Nat
deriving DecidableEq, Repr

/-- The freshly constructed builder: empty tree, all counters zero. -/
def initialBuilderState : BuilderState :=
  { entries := [], total_samples := 0, total_period := 0, total_error_callchains := 0 }

/-! ## Off-CPU time-delta builder (`TimestampSampleTreeBuilder`) -/

/-- Per-tid cache of the most recently seen pending sample record
(`next_sample_cache_`). -/
def TidCache : Type := Int → Option SampleRecord

/-- The empty cache. -/
def TidCache.empty : TidCache := fun _ => none

/-- Store record `r` under tid `t` (`next_sample_cache_[tid] = r` and
`it->second = r`). -/
def TidCache.store (c : TidCache) (t : Int) (r : SampleRecord) : TidCache :=
  fun t2 => if t2 = t then some r else c t2

/-- TimestampSampleTreeBuilder::GetPeriod.  The source first CHECKs that the
cache holds a record for `r`'s tid; the `none` branch models that assertion
failure and is unreachable from `ReportCmdProcessSampleRecord`, which always
stores the successor record before processing `r`. -/
def timestampGetPeriod (cache : TidCache) (r : SampleRecord) : Nat :=
  match cache r.tid with
  | some nxt => if nxt.time > r.time then nxt.time - r.time else 1
  | none => 1

/-- TimestampSampleTreeBuilder::ReportCmdProcessSampleRecord.  Returns the
updated cache together with the record handed on to `ProcessSampleRecord`
(if any) paired with the period `GetPeriod` computes for it. -/
def timestampStep (cache : TidCache) (r : SampleRecord) :
    TidCache × Option (SampleRecord × Nat) :=
  match cache r.tid with
  | none => (cache.store r.tid r, none)
  | some cur =>
    let cache2 := cache.store r.tid r
    (cache2, some (cur, timestampGetPeriod cache2 cur))

/-- Feeding a list of sample records through the time-delta builder in order;
collects the records actually processed, each with its computed period. -/
def timestampRun (cache : TidCache) : List SampleRecord → TidCache × List (SampleRecord × Nat)
  | [] => (cache, [])
  | r :: rest =>
    let step := timestampStep cache r
    let tail := timestampRun step.1 rest
    (tail.1, (match step.2 with | none => tail.2 | some e => e :: tail.2))

/-- The pending records the cache holds for one tid: none or exactly one. -/
def pendList (c : TidCache) (t : Int) : List SampleRecord :=
  match c t with
  | none => []
  | some p => [p]

/-- Well-formedness of the per-tid cache: every pending record is stored
under its own tid.  `ReportCmdProcessSampleRecord` only ever stores a record
under `r->tid_data.tid`, so every cache reachable from the empty one is
well-formed. -/
def cacheWF (c : TidCache) : Prop :=
  ∀ (t : Int) (p : SampleRecord), c t = some p → p.tid = t

/-! ## Flat aggregation: filters, merge, summary, sample creation -/

/-- User-supplied allowlists (`SetFilters`); the C++ `unordered_set`s are
modelled as lists, membership being all that is ever asked of them. -/
structure Filters where
  cpu_filter : List Int
  pid_filter : List Int
  tid_filter : List Int
  comm_filter : List String
  dso_filter : List String
  symbol_filter : List String
deriving DecidableEq, Repr

/-- ReportCmdSampleTreeBuilder::FilterSample, translated if-chain by if-chain:
each non-empty allowlist must contain the sample's corresponding attribute. -/
def FilterSample (f : Filters) (sample : SampleEntry) : Bool :=
  if f.cpu_filter ≠ [] ∧ sample.cpu ∉ f.cpu_filter then false
  else if f.pid_filter ≠ [] ∧ sample.pid ∉ f.pid_filter then false
  else if f.tid_filter ≠ [] ∧ sample.tid ∉ f.tid_filter then false
  else if f.comm_filter ≠ [] ∧ sample.thread_comm ∉ f.comm_filter then false
  else if f.dso_filter ≠ [] ∧ sample.map.dso.report_path ∉ f.dso_filter then false
  else if f.symbol_filter ≠ [] ∧ sample.symbol.demangled_name ∉ f.symbol_filter then false
  else true

/-- ReportCmdSampleTreeBuilder::MergeSample: add period, accumulated_period
and sample_count of `sample2` into `sample1`; every other field of `sample1`
is left untouched. -/
def MergeSample (sample1 sample2 : SampleEntry) : SampleEntry :=
  { sample1 with
      period := addU64 sample1.period sample2.period,
      accumulated_period := addU64 sample1.accumulated_period sample2.accumulated_period,
      sample_count := addU64 sample1.sample_count sample2.sample_count }

/-- ReportCmdSampleTreeBuilder::UpdateSummary: fold the sample's own count and
period into the running totals. -/
def UpdateSummary (st : BuilderState) (sample : SampleEntry) : BuilderState :=
  { st with
      total_samples := addU64 st.total_samples sample.sample_count,
      total_period := addU64 st.total_period sample.period }

/-- Modelled from the spec: the insert-or-merge step of
`SampleTreeBuilder::InsertSample` (in `sample_tree.h`, which is not part of
this repository snapshot).  Per the spec, an entry equal under the configured
comparator (here an abstract equality test `isSame`) absorbs the new sample
via MergeSample; otherwise the new entry is stored. -/
def mergeInto (isSame : SampleEntry → SampleEntry → Bool) :
    List SampleEntry → SampleEntry → List SampleEntry
  | [], s => [s]
  | e :: es, s => if isSame e s then MergeSample e s :: es else e :: mergeInto isSame es s

/-- Modelled from the spec: `SampleTreeBuilder::InsertSample` (`sample_tree.h`,
missing from this snapshot).  A sample rejected by FilterSample is not
inserted and does not update totals (the C++ returns a null entry, which makes
the caller skip callchain processing as well); an accepted sample updates the
summary exactly once with its original, pre-merge values and is then merged
into an equal entry or stored. -/
def InsertSample (isSame : SampleEntry → SampleEntry → Bool) (f : Filters)
    (st : BuilderState) (s : SampleEntry) : BuilderState :=
  if FilterSample f s then
    let st1 := UpdateSummary st s
    { st1 with entries := mergeInto isSame st1.entries s }
  else st

/-- ReportCmdSampleTreeBuilder::CreateSample: resolve thread, map and symbol
for the instruction pointer, compute the period via the specialization's
`GetPeriod` policy (passed here as a function), and build the entry with
accumulated_period 0 and sample_count 1.  Also returns the `acc_info` value
(the period) handed to the callchain accumulator. -/
def CreateSample (tt : ThreadTree) (getPeriod : SampleRecord → Nat) (r : SampleRecord) :
    SampleEntry × Nat :=
  let thread := tt.findThreadOrNew r.pid r.tid
  let map := tt.findMap thread r.ip r.in_kernel
  let symres := tt.findSymbol map r.ip
  let period := getPeriod r
  ({ time := r.time, period := period, accumulated_period := 0, sample_count := 1,
     cpu := r.cpu, pid := thread.pid, tid := thread.tid, thread_comm := thread.comm,
     map := map, symbol := symres.1, vaddr_in_file := symres.2,
     branch_from := BranchFromEntry.init }, period)

/-- ReportCmdSampleTreeBuilder::CreateBranchSample: one entry per branch-stack
item, keyed on the branch-to map/symbol/vaddr, with the branch-from fields
populated from the source address and the period taken from the record. -/
def CreateBranchSample (tt : ThreadTree) (r : SampleRecord) (item : BranchStackItem) :
    SampleEntry :=
  let thread := tt.findThreadOrNew r.pid r.tid
  let from_map := tt.findMapNoKernel thread item.from_addr
  let from_symres := tt.findSymbol from_map item.from_addr
  let to_map := tt.findMapNoKernel thread item.to_addr
  let to_symres := tt.findSymbol to_map item.to_addr
  { time := r.time, period := r.period, accumulated_period := 0, sample_count := 1,
    cpu := r.cpu, pid := thread.pid, tid := thread.tid, thread_comm := thread.comm,
    map := to_map, symbol := to_symres.1, vaddr_in_file := to_symres.2,
    branch_from := { map := some from_map, symbol := some from_symres.1,
                     vaddr_in_file := from_symres.2, flags := item.flags } }

/-- Modelled from the spec: `SampleTreeBuilder::InsertCallChainSample`
(`sample_tree.h`, missing).  A callchain sample merges into an equal existing
entry, preserving the identity of that entry, or is stored; it does not touch
the summary totals and is not filtered. -/
def InsertCallChainSample (isSame : SampleEntry → SampleEntry → Bool)
    (st : BuilderState) (s : SampleEntry) : BuilderState × Option SampleEntry :=
  let res := match st.entries.find? (fun e => isSame e s) with
    | some e => MergeSample e s
    | none => s
  ({ st with entries := mergeInto isSame st.entries s }, some res)

/-- ReportCmdSampleTreeBuilder::CreateCallChainSample: a frame whose
instruction pointer maps to the unknown dso produces no entry and bumps
`total_error_callchains_` once; otherwise the frame is resolved and inserted
as a callchain sample with period 0, accumulated_period `acc_info`,
sample_count 0, and the originating sample's thread_comm. -/
def CreateCallChainSample (tt : ThreadTree) (isSame : SampleEntry → SampleEntry → Bool)
    (st : BuilderState) (thread : ThreadEntry) (sample : SampleEntry) (ip : Nat)
    (in_kernel : Bool) (acc_info : Nat) : BuilderState × Option SampleEntry :=
  let map := tt.findMap thread ip in_kernel
  if tt.isUnknownDso map.dso then
    ({ st with total_error_callchains := addU64 st.total_error_callchains 1 }, none)
  else
    let symres := tt.findSymbol map ip
    let callchain_sample : SampleEntry :=
      { time := sample.time, period := 0, accumulated_period := acc_info, sample_count := 0,
        cpu := sample.cpu, pid := thread.pid, tid := thread.tid,
        thread_comm := sample.thread_comm, map := map, symbol := symres.1,
        vaddr_in_file := symres.2, branch_from := BranchFromEntry.init }
    InsertCallChainSample isSame st callchain_sample

/-- Modelled from the spec: the non-branch path of
`SampleTreeBuilder::ProcessSampleRecord` with callchain processing
(`sample_tree.h`, missing).  The created sample is inserted; when the filter
rejects it, InsertSample returns null and the callchain walk is skipped, so a
rejected sample contributes no entry, no totals and no callchain entries.
Each surviving frame is handed to CreateCallChainSample with the sample's
period as `acc_info`. -/
def processSampleRecordCallchain (tt : ThreadTree)
    (isSame : SampleEntry → SampleEntry → Bool) (f : Filters)
    (getPeriod : SampleRecord → Nat) (st : BuilderState) (r : SampleRecord)
    (frames : List (Nat × Bool)) : BuilderState :=
  let created := CreateSample tt getPeriod r
  if FilterSample f created.1 then
    let thread := tt.findThreadOrNew r.pid r.tid
    let st1 := InsertSample isSame f st created.1
    frames.foldl
      (fun acc fr =>
        (CreateCallChainSample tt isSame acc thread created.1 fr.1 fr.2 created.2).1)
      st1
  else st

/-! ## Sample tree extraction and report printing -/

/-- SampleTree from `cmd_report.cpp`: the per-pipeline output record. -/
structure SampleTree where
  samples : List SampleEntry
  total_samples : Nat
  total_period : Nat
  total_error_callchains : Nat
  event_name : String
deriving DecidableEq, Repr

/-- ReportCmdSampleTreeBuilder::GetSampleTree: copy the entries and the
running totals into a SampleTree.  `AddCallChainDuplicateInfo` only marks
duplicate callchain nodes and touches none of these fields, so it is omitted
here. -/
def GetSampleTree (st : BuilderState) (event_name : String) : SampleTree :=
  { samples := st.entries, total_samples := st.total_samples,
    total_period := st.total_period,
    total_error_callchains := st.total_error_callchains, event_name := event_name }

/-- EventAttrWithName from `cmd_report.cpp`: `ty` and `config` stand for
`attr.attr.type` and `attr.attr.config`; `has_branch_stack` is the
`PERF_SAMPLE_BRANCH_STACK` bit of `attr.attr.sample_type`. -/
structure EventAttrWithName where
  name : String
  ty : Nat
  config : Nat
  has_branch_stack : Bool
deriving DecidableEq, Repr

/-- One line of the printed report.  A line is modelled by the data printed on
it; the error-callchain line also shows the percentage
`total_error_callchains * 100.0 / total_samples`, a double computed from the
two counters at print time and therefore carried implicitly by the count. -/
inductive ReportLine where
  | cmdlineLine (cmdline : String)
  | archLine (arch : String)
  | eventLine (name : String) (ty : Nat) (config : Nat)
  | samplesLine (n : Nat)
  | errorCallchainsLine (n : Nat)
  | periodLine (label : String) (n : Nat)
  | tableLines (samples : List SampleEntry)
deriving DecidableEq, Repr

/-- The per-pipeline block of ReportCommand::PrintReport: event header, sample
count, the error-callchain line only when the counter is non-zero, the total
period labelled `Time in ns` in off-CPU mode and `Event count` otherwise, and
the displayed table. -/
def printPipeline (trace_offcpu : Bool) (attr : EventAttrWithName) (tree : SampleTree) :
    List ReportLine :=
  [ReportLine.eventLine attr.name attr.ty attr.config,
   ReportLine.samplesLine tree.total_samples]
  ++ (if tree.total_error_callchains ≠ 0 then
        [ReportLine.errorCallchainsLine tree.total_error_callchains] else [])
  ++ [ReportLine.periodLine (if trace_offcpu then "Time in ns" else "Event count")
        tree.total_period,
      ReportLine.tableLines tree.samples]

/-- The pipeline indices ReportCommand::PrintReport iterates over: all
attribute indices, skipping the sched-switch driver in off-CPU mode. -/
def printedPipelines (trace_offcpu : Bool) (sched_switch_attr_id num_attrs : Nat) :
    List Nat :=
  (List.range num_attrs).filter
    (fun i => decide ¬(trace_offcpu = true ∧ i = sched_switch_attr_id))

/-- ReportCommand::PrintReport: the report context followed by one block per
non-skipped pipeline (pipeline `i` pairs `event_attrs_[i]` with
`sample_tree_[i]`). -/
def PrintReport (trace_offcpu : Bool) (sched_switch_attr_id : Nat)
    (event_attrs : List EventAttrWithName) (sample_tree : List SampleTree)
    (cmdline arch : String) : List ReportLine :=
  [ReportLine.cmdlineLine cmdline, ReportLine.archLine arch]
  ++ (printedPipelines trace_offcpu sched_switch_attr_id event_attrs.length).flatMap
       (fun i =>
         match event_attrs[i]?, sample_tree[i]? with
         | some attr, some tree => printPipeline trace_offcpu attr tree
         | _, _ => [])

/-! ## Off-CPU fan-out routing -/

/-- ReportCommand::ProcessSampleRecordInTraceOffCpuMode: the list of builder
indices, in order, that the sample is fed to.  A sample of the sched-switch
driver attribute is broadcast to every other pipeline and skipped by its own;
any other sample goes only to its own pipeline. -/
def offcpuRouteTargets (num_attrs sched_switch_attr_id attr_id : Nat) : List Nat :=
  if attr_id = sched_switch_attr_id then
    (List.range num_attrs).filter (fun i => i ≠ sched_switch_attr_id)
  else
    [attr_id]

/-! ## Reading event attributes; the off-CPU driver lookup -/

/-- The first-index search of ReportCommand::ReadEventAttrFromRecordFile,
translated from its `for` loop: the index of the first attribute named
`sched:sched_switch`. -/
def findSchedSwitchIdx : List EventAttrWithName → Option Nat
  | [] => none
  | attr :: rest =>
    if attr.name = "sched:sched_switch" then some 0
    else (findSchedSwitchIdx rest).map (fun i => i + 1)

/-- ReportCommand::ReadEventAttrFromRecordFile.  On success it yields the
sched-switch attr id (0, its initial value, when off-CPU mode is off).  The
`CHECK_NE(i, event_attrs_.size())`, which aborts the process with a fatal log
when off-CPU mode is declared but no `sched:sched_switch` attribute exists, is
modelled as an error result. -/
def ReadEventAttrFromRecordFile (use_branch_address trace_offcpu : Bool)
    (event_attrs : List EventAttrWithName) : Except String Nat :=
  if use_branch_address ∧ ¬(event_attrs.all (fun a => a.has_branch_stack)) then
    Except.error "is not recorded with branch stack sampling option"
  else if trace_offcpu then
    match findSchedSwitchIdx event_attrs with
    | some i => Except.ok i
    | none => Except.error "CHECK failed: no sched:sched_switch attr in record file"
  else Except.ok 0

/-- The record-file data the claims need: the `trace_offcpu` meta-info value
and the attribute table.  The record stream itself is routed through the
builders modelled above. -/
structure RecordFileData where
  trace_offcpu_meta : Bool
  event_attrs : List EventAttrWithName

/-- The report-relevant skeleton of ReportCommand::Run, preserving its order:
meta info and event attributes are read first and any failure aborts before
PrintReport emits a single line.  The sample trees handed to PrintReport are a
parameter, standing for the result of ReadSampleTreeFromRecordFile. -/
def runReport (use_branch_address : Bool) (rf : RecordFileData)
    (sample_tree : List SampleTree) (cmdline arch : String) :
    Except String (List ReportLine) :=
  match ReadEventAttrFromRecordFile use_branch_address rf.trace_offcpu_meta rf.event_attrs with
  | Except.error msg => Except.error msg
  | Except.ok sched_switch_attr_id =>
    Except.ok (PrintReport rf.trace_offcpu_meta sched_switch_attr_id rf.event_attrs
      sample_tree cmdline arch)

/-! ## Sort keys and the -g / --children options -/

/-- The `branch_sort_keys` set from `cmd_report.cpp`. -/
def branch_sort_keys : List String :=
  ["dso_from", "dso_to", "symbol_from", "symbol_to"]

/-- All sort keys the dispatch chain of
ReportCommand::BuildSampleComparatorAndDisplayer recognizes. -/
def recognizedSortKeys : List String :=
  ["pid", "tid", "comm", "dso", "symbol", "vaddr_in_file",
   "dso_from", "dso_to", "symbol_from", "symbol_to"]

/-- The per-key validation of the sort-key loop in
ReportCommand::BuildSampleComparatorAndDisplayer: a branch key without the -b
option is an error, then the if-chain over the recognized keys, with an error
for an unknown key. -/
def sortKeyOk (use_branch_address : Bool) (key : String) : Bool :=
  if use_branch_address = false ∧ key ∈ branch_sort_keys then false
  else if key = "pid" then true
  else if key = "tid" then true
  else if key = "comm" then true
  else if key = "dso" then true
  else if key = "symbol" then true
  else if key = "vaddr_in_file" then true
  else if key = "dso_from" then true
  else if key = "dso_to" then true
  else if key = "symbol_from" then true
  else if key = "symbol_to" then true
  else false

/-- Whether the sort-key loop of BuildSampleComparatorAndDisplayer accepts the
whole list (the C++ loop returns false at the first offending key; success of
the loop equals every key passing).  This runs inside ParseOptions, before the
record file is opened in ReportCommand::Run. -/
def buildComparatorOk (use_branch_address : Bool) (sort_keys : List String) : Bool :=
  sort_keys.all (sortKeyOk use_branch_address)

/-- The callgraph-related outcome of ReportCommand::ParseOptions. -/
structure ParsedCallgraphOptions where
  accumulate_callchain : Bool
  print_callgraph : Bool
  callgraph_show_callee : Bool
deriving DecidableEq, Repr

/-- The `--children` and `-g` handling of ReportCommand::ParseOptions.
`g_value` is `none` when -g is absent, `some none` for a bare -g and
`some (some s)` for `-g s`.  `--children` sets accumulate_callchain_; -g sets
print_callgraph_ and unconditionally also accumulate_callchain_, then parses
its optional callee/caller argument, failing on anything else. -/
def parseCallgraphOptions (children_present : Bool) (g_value : Option (Option String)) :
    Except String ParsedCallgraphOptions :=
  let acc := children_present
  match g_value with
  | none =>
    Except.ok { accumulate_callchain := acc, print_callgraph := false,
                callgraph_show_callee := false }
  | some arg =>
    match arg with
    | none =>
      Except.ok { accumulate_callchain := true, print_callgraph := true,
                  callgraph_show_callee := false }
    | some s =>
      if s = "callee" then
        Except.ok { accumulate_callchain := true, print_callgraph := true,
                    callgraph_show_callee := true }
      else if s = "caller" then
        Except.ok { accumulate_callchain := true, print_callgraph := true,
                    callgraph_show_callee := false }
      else Except.error "Unknown argument with -g option"

/-! ## Ingestion as a sequence of builder operations -/

/-- One builder-mutating operation during ingestion: a plain (non-branch)
sample record, one branch-stack item of a record in branch mode, or one
callchain frame expansion. -/
inductive BuilderOp where
  | flat (r : SampleRecord)
  | branch (r : SampleRecord) (item : BranchStackItem)
  | callchain (thread : ThreadEntry) (sample : SampleEntry) (ip : Nat)
      (in_kernel : Bool) (acc_info : Nat)

/-- Apply one operation to the builder state: flat and branch samples go
through CreateSample/CreateBranchSample and InsertSample, callchain frames
through CreateCallChainSample. -/
def applyOp (tt : ThreadTree) (isSame : SampleEntry → SampleEntry → Bool) (f : Filters)
    (getPeriod : SampleRecord → Nat) (st : BuilderState) : BuilderOp → BuilderState
  | BuilderOp.flat r => InsertSample isSame f st (CreateSample tt getPeriod r).1
  | BuilderOp.branch r item => InsertSample isSame f st (CreateBranchSample tt r item)
  | BuilderOp.callchain thread sample ip in_kernel acc_info =>
    (CreateCallChainSample tt isSame st thread sample ip in_kernel acc_info).1

/-- Apply a whole ingestion sequence in order. -/
def applyOps (tt : ThreadTree) (isSame : SampleEntry → SampleEntry → Bool) (f : Filters)
    (getPeriod : SampleRecord → Nat) (st : BuilderState) (ops : List BuilderOp) :
    BuilderState :=
  ops.foldl (applyOp tt isSame f getPeriod) st

/-- Whether an operation folds a sample into the tree: a flat sample or a
branch item whose created entry passes the filter.  Callchain insertions fold
no sample (their entries carry sample_count 0 and do not touch the summary). -/
def opAccepted (tt : ThreadTree) (f : Filters) (getPeriod : SampleRecord → Nat) :
    BuilderOp → Bool
  | BuilderOp.flat r => FilterSample f (CreateSample tt getPeriod r).1
  | BuilderOp.branch r item => FilterSample f (CreateBranchSample tt r item)
  | BuilderOp.callchain _ _ _ _ _ => false

/-- The number of accepted samples (non-branch mode) or accepted branch items
(branch mode) in an ingestion sequence. -/
def acceptedSampleCount (tt : ThreadTree) (f : Filters) (getPeriod : SampleRecord → Nat)
    (ops : List BuilderOp) : Nat :=
  (ops.filter (opAccepted tt f getPeriod)).length

/-- Sum of the stored periods of the aggregated entries. -/
def entryPeriodSum (es : List SampleEntry) : Nat :=
  (es.map SampleEntry.period).sum

/-- Sum of the stored sample counts of the aggregated entries. -/
def entrySampleCountSum (es : List SampleEntry) : Nat :=
  (es.map SampleEntry.sample_count).sum

/-! ## Theorems -/

/-- C1: in off-CPU mode the time-delta builder stores the first record of a
thread without emitting anything; on each later record `r` for the tid it
replaces the stored `prev` by `r` and processes `prev` with period
`r.time - prev.time` when `r.time > prev.time` and period 1 otherwise; for
sched-switch timestamps `t0 < t1 < t2` of one thread the emitted periods are
`t1 - t0` and then `t2 - t1`. -/
theorem offcpu_time_delta_builder
    (cache : TidCache) (r prev r0 r1 r2 : SampleRecord)
    (hpend : cache r.tid = some prev) (htid : prev.tid = r.tid)
    (h01 : r0.tid = r1.tid) (h12 : r1.tid = r2.tid)
    (t01 : r0.time < r1.time) (t12 : r1.time < r2.time) :
    (∀ c : TidCache, c r.tid = none → timestampStep c r = (c.store r.tid r, none))
    ∧ timestampStep cache r =
        (cache.store r.tid r,
         some (prev, if r.time > prev.time then r.time - prev.time else 1))
    ∧ (timestampRun TidCache.empty [r0, r1, r2]).2 =
        [(r0, r1.time - r0.time), (r1, r2.time - r1.time)] := by
  refine ⟨fun c hc => by simp [timestampStep, hc], ?_, ?_⟩
  · have hper : timestampGetPeriod (cache.store r.tid r) prev =
        if r.time > prev.time then r.time - prev.time else 1 := by
      simp [timestampGetPeriod, TidCache.store, htid]
    simp [timestampStep, hpend, hper]
  · simp [timestampRun, timestampStep, timestampGetPeriod, TidCache.store, TidCache.empty,
      h01, h12, t01, t12, Nat.not_lt.mpr (Nat.le_of_lt t01), Nat.not_lt.mpr (Nat.le_of_lt t12)]

/-- Witness for C1 at the spec's own scenario: a thread with sched-switch
timestamps 1000, 1300, 2000 yields emitted periods 300 and 700. -/
theorem offcpu_time_delta_builder_witness :
    (timestampRun TidCache.empty
        [⟨1000, 0, 7, 7, 0, 0, false⟩, ⟨1300, 0, 7, 7, 0, 0, false⟩,
         ⟨2000, 0, 7, 7, 0, 0, false⟩]).2 =
      [(⟨1000, 0, 7, 7, 0, 0, false⟩, 300), (⟨1300, 0, 7, 7, 0, 0, false⟩, 700)] := by
  have h := offcpu_time_delta_builder
    (TidCache.empty.store 7 ⟨1000, 0, 7, 7, 0, 0, false⟩)
    ⟨1300, 0, 7, 7, 0, 0, false⟩ ⟨1000, 0, 7, 7, 0, 0, false⟩
    ⟨1000, 0, 7, 7, 0, 0, false⟩ ⟨1300, 0, 7, 7, 0, 0, false⟩ ⟨2000, 0, 7, 7, 0, 0, false⟩
    (by simp [TidCache.store, TidCache.empty]) rfl rfl rfl (by decide) (by decide)
  simpa using h.2.2

/-- Helper: storing a record under its own tid keeps the cache well-formed. -/
theorem cacheWF_store (c : TidCache) (r : SampleRecord) (h : cacheWF c) :
    cacheWF (c.store r.tid r) := by
  intro t2 p hp
  by_cases ht : t2 = r.tid
  · subst ht
    simp [TidCache.store] at hp
    subst hp
    rfl
  · simp only [TidCache.store, if_neg ht] at hp
    exact h t2 p hp

/-- Helper for C10: per-tid accounting of an off-CPU run over an arbitrary,
possibly interleaved, multi-thread record stream.  For every tid, the records
processed are the pending one (if any) followed by all but the last of the
tid's own records, and the tid's last record stays pending in the cache. -/
theorem timestampRun_per_tid :
    ∀ (rs : List SampleRecord) (c : TidCache), cacheWF c → ∀ t : Int,
      (((timestampRun c rs).2).map Prod.fst).filter (fun x => x.tid = t)
        = (pendList c t ++ rs.filter (fun x => x.tid = t)).dropLast
      ∧ (timestampRun c rs).1 t
        = (pendList c t ++ rs.filter (fun x => x.tid = t)).getLast? := by
  intro rs
  induction rs with
  | nil =>
    intro c _ t
    refine ⟨?_, ?_⟩ <;> cases hc : c t <;> simp [timestampRun, pendList, hc]
  | cons r rest ih =>
    intro c hwf t
    have ihall := ih (c.store r.tid r) (cacheWF_store c r hwf)
    cases hc : c r.tid with
    | none =>
      have hshift : pendList (c.store r.tid r) t ++ rest.filter (fun x => x.tid = t)
          = pendList c t ++ (r :: rest).filter (fun x => x.tid = t) := by
        by_cases ht : t = r.tid
        · subst ht
          simp [pendList, TidCache.store, hc, List.filter_cons]
        · have hne : ¬(r.tid = t) := fun h2 => ht h2.symm
          simp [pendList, TidCache.store, ht, hne, List.filter_cons]
      refine ⟨?_, ?_⟩
      · simp only [timestampRun, timestampStep, hc]
        rw [(ihall t).1, hshift]
      · simp only [timestampRun, timestampStep, hc]
        rw [(ihall t).2, hshift]
    | some cur =>
      have hcurtid : cur.tid = r.tid := hwf r.tid cur hc
      have hpend2 : pendList (c.store r.tid r) r.tid = [r] := by
        simp [pendList, TidCache.store]
      have hpend : pendList c r.tid = [cur] := by simp [pendList, hc]
      by_cases ht : t = r.tid
      · subst ht
        refine ⟨?_, ?_⟩
        · have hfc : ∀ l : List SampleRecord,
              (cur :: l).filter (fun x => x.tid = r.tid)
                = cur :: l.filter (fun x => x.tid = r.tid) := by
            intro l
            simp [List.filter_cons, hcurtid]
          simp only [timestampRun, timestampStep, hc, List.map_cons]
          rw [hfc, (ihall r.tid).1, hpend2, hpend]
          simp [List.filter_cons, List.dropLast_cons₂]
        · simp only [timestampRun, timestampStep, hc]
          rw [(ihall r.tid).2, hpend2, hpend]
          simp [List.filter_cons, List.getLast?_cons_cons]
      · have hne : ¬(r.tid = t) := fun h2 => ht h2.symm
        have hnecur : ¬(cur.tid = t) := by rw [hcurtid]; exact hne
        have hshift : pendList (c.store r.tid r) t = pendList c t := by
          simp [pendList, TidCache.store, ht]
        refine ⟨?_, ?_⟩
        · have hfc : ∀ l : List SampleRecord,
              (cur :: l).filter (fun x => x.tid = t)
                = l.filter (fun x => x.tid = t) := by
            intro l
            simp [List.filter_cons, hnecur]
          simp only [timestampRun, timestampStep, hc, List.map_cons]
          rw [hfc, (ihall t).1, hshift]
          simp [List.filter_cons, hne]
        · simp only [timestampRun, timestampStep, hc]
          rw [(ihall t).2, hshift]
          simp [List.filter_cons, hne]

/-- C10: in off-CPU mode, over an arbitrary (multi-thread, interleaved)
ingestion stream, for every thread id the most recently received record stays
pending in the per-tid cache and is never processed: the records processed for
a tid are exactly all of the tid's records except its last, so a thread with
exactly one driver sample contributes no entry, no period, and no sample
count to any pipeline — folding its (empty) processed list into any pipeline
state leaves the state unchanged. -/
theorem offcpu_pending_never_processed (rs : List SampleRecord) (t : Int) :
    (((timestampRun TidCache.empty rs).2).map Prod.fst).filter (fun x => x.tid = t)
      = (rs.filter (fun x => x.tid = t)).dropLast
    ∧ (timestampRun TidCache.empty rs).1 t = (rs.filter (fun x => x.tid = t)).getLast?
    ∧ (∀ x : SampleRecord, (timestampRun TidCache.empty [x]).2 = [])
    ∧ (∀ (σ : Type) (g : σ → SampleRecord × Nat → σ) (init : σ) (x : SampleRecord),
        ((timestampRun TidCache.empty [x]).2).foldl g init = init) := by
  have hwf : cacheWF TidCache.empty := fun t2 p hp => by simp [TidCache.empty] at hp
  have h := timestampRun_per_tid rs TidCache.empty hwf t
  have hpend : pendList TidCache.empty t = [] := rfl
  have single : ∀ x : SampleRecord, (timestampRun TidCache.empty [x]).2 = [] := by
    intro x
    simp [timestampRun, timestampStep, TidCache.empty]
  refine ⟨?_, ?_, single, fun σ g init x => by rw [single x]; rfl⟩
  · have h1 := h.1
    rw [hpend] at h1
    simpa using h1
  · have h2 := h.2
    rw [hpend] at h2
    simpa using h2

/-- Record fixtures for the C10 witness: two threads, interleaved. -/
def wR7a : SampleRecord := ⟨1000, 0, 7, 7, 0, 0, false⟩

/-- Second record of tid 9 arrives between the two records of tid 7. -/
def wR9a : SampleRecord := ⟨1100, 0, 9, 9, 0, 0, false⟩

/-- Second record of tid 7. -/
def wR7b : SampleRecord := ⟨1300, 0, 7, 7, 0, 0, false⟩

/-- Second record of tid 9, last in the stream. -/
def wR9b : SampleRecord := ⟨1500, 0, 9, 9, 0, 0, false⟩

/-- Witness for C10 on an interleaved two-thread stream: for each tid only the
earlier record is processed, the latest stays pending, and a single-sample
stream processes nothing at all. -/
theorem offcpu_pending_never_processed_witness :
    (((timestampRun TidCache.empty [wR7a, wR9a, wR7b, wR9b]).2).map Prod.fst).filter
        (fun x => x.tid = 7) = [wR7a]
    ∧ (timestampRun TidCache.empty [wR7a, wR9a, wR7b, wR9b]).1 7 = some wR7b
    ∧ (timestampRun TidCache.empty [wR7a, wR9a, wR7b, wR9b]).1 9 = some wR9b
    ∧ (timestampRun TidCache.empty [wR7a]).2 = [] := by
  have h7 := offcpu_pending_never_processed [wR7a, wR9a, wR7b, wR9b] 7
  have h9 := offcpu_pending_never_processed [wR7a, wR9a, wR7b, wR9b] 9
  refine ⟨?_, ?_, ?_, h7.2.2.1 wR7a⟩
  · rw [h7.1]; decide
  · rw [h7.2.1]; decide
  · rw [h9.2.1]; decide

/-- Helper: merging a sample into a list whose first comparator-equal entry is
`e` replaces exactly that entry by `MergeSample e s`. -/
theorem mergeInto_first_equal (isSame : SampleEntry → SampleEntry → Bool)
    (es1 : List SampleEntry) :
    ∀ (e s : SampleEntry) (es2 : List SampleEntry),
      (∀ x ∈ es1, isSame x s = false) → isSame e s = true →
      mergeInto isSame (es1 ++ e :: es2) s = es1 ++ MergeSample e s :: es2 := by
  induction es1 with
  | nil => intro e s es2 _ heq; simp [mergeInto, heq]
  | cons x xs ih =>
    intro e s es2 hfirst heq
    have hx : isSame x s = false := hfirst x (by simp)
    simp only [List.cons_append, mergeInto, hx, Bool.false_eq_true, if_false,
      List.cons.injEq, true_and]
    exact ih e s es2 (fun y hy => hfirst y (List.mem_cons_of_mem x hy)) heq

/-- C2: inserting a sample that compares equal to a stored entry merges into
that entry by uint64-adding period, accumulated_period and sample_count,
leaving every other field of the stored entry unchanged; inserting the same
sample twice into an empty builder yields one entry with doubled period and
sample_count, never two entries. -/
theorem aggregation_merge_semantics
    (isSame : SampleEntry → SampleEntry → Bool) (f : Filters) (st : BuilderState)
    (es1 es2 : List SampleEntry) (e s : SampleEntry)
    (hentries : st.entries = es1 ++ e :: es2)
    (hfirst : ∀ x ∈ es1, isSame x s = false)
    (heq : isSame e s = true)
    (hacc : FilterSample f s = true)
    (hrefl : isSame s s = true) :
    (InsertSample isSame f st s).entries = es1 ++ MergeSample e s :: es2
    ∧ (InsertSample isSame f st s).entries.length = st.entries.length
    ∧ (MergeSample e s).period = (e.period + s.period) % u64Mod
    ∧ (MergeSample e s).accumulated_period
        = (e.accumulated_period + s.accumulated_period) % u64Mod
    ∧ (MergeSample e s).sample_count = (e.sample_count + s.sample_count) % u64Mod
    ∧ (MergeSample e s).time = e.time
    ∧ (MergeSample e s).cpu = e.cpu
    ∧ (MergeSample e s).pid = e.pid
    ∧ (MergeSample e s).tid = e.tid
    ∧ (MergeSample e s).thread_comm = e.thread_comm
    ∧ (MergeSample e s).map = e.map
    ∧ (MergeSample e s).symbol = e.symbol
    ∧ (MergeSample e s).vaddr_in_file = e.vaddr_in_file
    ∧ (MergeSample e s).branch_from = e.branch_from
    ∧ (InsertSample isSame f (InsertSample isSame f initialBuilderState s) s).entries
        = [MergeSample s s] := by
  have hmain : (InsertSample isSame f st s).entries = es1 ++ MergeSample e s :: es2 := by
    simp only [InsertSample, hacc, if_true, UpdateSummary]
    rw [hentries]
    exact mergeInto_first_equal isSame es1 e s es2 hfirst heq
  refine ⟨hmain, ?_, rfl, rfl, rfl, rfl, rfl, rfl, rfl, rfl, rfl, rfl, rfl, rfl, ?_⟩
  · rw [hmain, hentries]; simp
  · simp [InsertSample, hacc, UpdateSummary, initialBuilderState, mergeInto, hrefl]

/-- Concrete sample entry used by witnesses. -/
def wSampleEntry : SampleEntry :=
  { time := 0, period := 100, accumulated_period := 0, sample_count := 1, cpu := 0,
    pid := 1, tid := 1, thread_comm := "main", map := { dso := { report_path := "a.so" } },
    symbol := { demangled_name := "f" }, vaddr_in_file := 4096,
    branch_from := BranchFromEntry.init }

/-- Comparator used by witnesses: compare by pid only. -/
def wComparator : SampleEntry → SampleEntry → Bool := fun a b => a.pid == b.pid

/-- Empty allowlists: no restriction. -/
def emptyFilters : Filters := ⟨[], [], [], [], [], []⟩

/-- Witness for C2: inserting the same concrete sample twice gives one entry
with period 200 and sample_count 2. -/
theorem aggregation_merge_semantics_witness :
    (InsertSample wComparator emptyFilters
        (InsertSample wComparator emptyFilters initialBuilderState wSampleEntry)
        wSampleEntry).entries = [MergeSample wSampleEntry wSampleEntry]
    ∧ (MergeSample wSampleEntry wSampleEntry).period = 200
    ∧ (MergeSample wSampleEntry wSampleEntry).sample_count = 2 := by
  have h := aggregation_merge_semantics wComparator emptyFilters
    { entries := [wSampleEntry], total_samples := 1, total_period := 100,
      total_error_callchains := 0 } [] [] wSampleEntry wSampleEntry rfl
    (by intro x hx; simp at hx) (by decide) (by decide) (by decide)
  refine ⟨h.2.2.2.2.2.2.2.2.2.2.2.2.2.2, ?_, ?_⟩
  · rw [h.2.2.1]; decide
  · rw [h.2.2.2.2.1]; decide

/-- C4: FilterSample accepts a sample iff each of the six allowlists is empty
or contains the sample's corresponding attribute; a rejected sample is not
inserted, updates no totals, and contributes no callchain. -/
theorem filter_allowlists_spec (f : Filters) (s : SampleEntry)
    (isSame : SampleEntry → SampleEntry → Bool) (st : BuilderState) (tt : ThreadTree)
    (getPeriod : SampleRecord → Nat) (r : SampleRecord) (frames : List (Nat × Bool)) :
    (FilterSample f s = true ↔
      ((f.cpu_filter = [] ∨ s.cpu ∈ f.cpu_filter)
       ∧ (f.pid_filter = [] ∨ s.pid ∈ f.pid_filter)
       ∧ (f.tid_filter = [] ∨ s.tid ∈ f.tid_filter)
       ∧ (f.comm_filter = [] ∨ s.thread_comm ∈ f.comm_filter)
       ∧ (f.dso_filter = [] ∨ s.map.dso.report_path ∈ f.dso_filter)
       ∧ (f.symbol_filter = [] ∨ s.symbol.demangled_name ∈ f.symbol_filter)))
    ∧ (FilterSample f s = false → InsertSample isSame f st s = st)
    ∧ (FilterSample f (CreateSample tt getPeriod r).1 = false →
        processSampleRecordCallchain tt isSame f getPeriod st r frames = st) := by
  refine ⟨?_, fun h => by simp [InsertSample, h], fun h => by
    simp [processSampleRecordCallchain, h]⟩
  unfold FilterSample
  split_ifs with h1 h2 h3 h4 h5 h6 <;> simp_all
  tauto

/-- Filters used by the C4 witness: only pid 2 allowed. -/
def wFiltersPid2 : Filters := ⟨[], [2], [], [], [], []⟩

/-- Witness for C4: the concrete sample (pid 1) is rejected by a pid-2
allowlist, leaving the builder untouched, and accepted by empty allowlists. -/
theorem filter_allowlists_spec_witness :
    InsertSample wComparator wFiltersPid2 initialBuilderState wSampleEntry
      = initialBuilderState
    ∧ FilterSample emptyFilters wSampleEntry = true := by
  refine ⟨?_, ?_⟩
  · exact (filter_allowlists_spec wFiltersPid2 wSampleEntry wComparator
      initialBuilderState ⟨fun _ _ => ⟨0, 0, "c"⟩, fun _ _ _ => ⟨⟨"d"⟩⟩,
        fun _ _ => ⟨⟨"d"⟩⟩, fun _ _ => (⟨"s"⟩, 0), fun _ => false⟩
      (fun x => x.period) ⟨0, 0, 0, 0, 0, 0, false⟩ []).2.1 (by decide)
  · exact (filter_allowlists_spec emptyFilters wSampleEntry wComparator
      initialBuilderState ⟨fun _ _ => ⟨0, 0, "c"⟩, fun _ _ _ => ⟨⟨"d"⟩⟩,
        fun _ _ => ⟨⟨"d"⟩⟩, fun _ _ => (⟨"s"⟩, 0), fun _ => false⟩
      (fun x => x.period) ⟨0, 0, 0, 0, 0, 0, false⟩ []).1.mpr (by decide)

/-- C3: in off-CPU mode a sched-switch-driver sample is fed to every other
pipeline and never to its own, a non-driver sample only to its own pipeline,
and the printed report skips the driver pipeline entirely. -/
theorem offcpu_fanout_routing (num_attrs sched_switch_attr_id attr_id i : Nat)
    (_hattr : attr_id < num_attrs) :
    (attr_id = sched_switch_attr_id →
      (i ∈ offcpuRouteTargets num_attrs sched_switch_attr_id attr_id ↔
        i < num_attrs ∧ i ≠ sched_switch_attr_id))
    ∧ (attr_id ≠ sched_switch_attr_id →
        offcpuRouteTargets num_attrs sched_switch_attr_id attr_id = [attr_id])
    ∧ sched_switch_attr_id ∉ offcpuRouteTargets num_attrs sched_switch_attr_id attr_id
    ∧ (i ∈ printedPipelines true sched_switch_attr_id num_attrs ↔
        i < num_attrs ∧ i ≠ sched_switch_attr_id)
    ∧ sched_switch_attr_id ∉ printedPipelines true sched_switch_attr_id num_attrs := by
  refine ⟨?_, ?_, ?_, ?_, ?_⟩
  · intro h
    subst h
    simp [offcpuRouteTargets, List.mem_filter, List.mem_range, and_comm]
  · intro h
    simp [offcpuRouteTargets, h]
  · by_cases h : attr_id = sched_switch_attr_id
    · subst h
      simp [offcpuRouteTargets, List.mem_filter]
    · simp [offcpuRouteTargets, h]
      exact fun he => absurd he.symm h
  · simp [printedPipelines, List.mem_filter, List.mem_range, and_comm]
  · simp [printedPipelines, List.mem_filter]

/-- Witness for C3 with two attributes and driver id 0: the driver sample is
routed to pipeline 1 only, a non-driver sample to itself, and the driver
pipeline is not printed. -/
theorem offcpu_fanout_routing_witness :
    (1 ∈ offcpuRouteTargets 2 0 0)
    ∧ offcpuRouteTargets 2 0 1 = [1]
    ∧ (0 ∉ offcpuRouteTargets 2 0 0)
    ∧ (0 ∉ printedPipelines true 0 2) := by
  have hdrv := offcpu_fanout_routing 2 0 0 1 (by decide)
  have hoth := offcpu_fanout_routing 2 0 1 1 (by decide)
  exact ⟨(hdrv.1 rfl).mpr (by decide), hoth.2.1 (by decide), hdrv.2.2.1,
    hdrv.2.2.2.2⟩

/-- C5: a callchain frame resolving to an unknown dso produces no entry and
bumps total_error_callchains exactly once; a frame with a known dso leaves the
error counter alone and produces an entry; the error-callchain line is printed
iff the counter is non-zero. -/
theorem unknown_dso_callchain_error (tt : ThreadTree)
    (isSame : SampleEntry → SampleEntry → Bool) (st : BuilderState)
    (thread : ThreadEntry) (sample : SampleEntry) (ip : Nat) (in_kernel : Bool)
    (acc_info : Nat) (tree : SampleTree) (attr : EventAttrWithName) (toff : Bool)
    (hunk : tt.isUnknownDso (tt.findMap thread ip in_kernel).dso = true) :
    CreateCallChainSample tt isSame st thread sample ip in_kernel acc_info
      = ({ st with total_error_callchains := addU64 st.total_error_callchains 1 }, none)
    ∧ (∀ tt2 : ThreadTree,
        tt2.isUnknownDso (tt2.findMap thread ip in_kernel).dso = false →
        (CreateCallChainSample tt2 isSame st thread sample ip in_kernel
            acc_info).1.total_error_callchains = st.total_error_callchains
        ∧ (CreateCallChainSample tt2 isSame st thread sample ip in_kernel
            acc_info).2 ≠ none)
    ∧ (ReportLine.errorCallchainsLine tree.total_error_callchains
        ∈ printPipeline toff attr tree ↔ tree.total_error_callchains ≠ 0) := by
  refine ⟨by simp [CreateCallChainSample, hunk], ?_, ?_⟩
  · intro tt2 hk
    constructor
    · simp [CreateCallChainSample, hk, InsertCallChainSample]
    · simp [CreateCallChainSample, hk, InsertCallChainSample]
  · by_cases hc : tree.total_error_callchains = 0 <;> simp [printPipeline, hc]

/-- Thread tree oracle for witnesses whose maps all resolve to the unknown
dso. -/
def wUnknownTT : ThreadTree :=
  { findThreadOrNew := fun p t => ⟨p, t, "main"⟩,
    findMap := fun _ _ _ => ⟨⟨"unknown"⟩⟩,
    findMapNoKernel := fun _ _ => ⟨⟨"unknown"⟩⟩,
    findSymbol := fun _ _ => (⟨"u"⟩, 0),
    isUnknownDso := fun d => d.report_path == "unknown" }

/-- Witness for C5: a concrete unknown-dso frame yields no entry and an error
count of one, and a tree with one error callchain prints the error line. -/
theorem unknown_dso_callchain_error_witness :
    (CreateCallChainSample wUnknownTT wComparator initialBuilderState
        ⟨1, 1, "main"⟩ wSampleEntry 4096 false 100).2 = none
    ∧ (CreateCallChainSample wUnknownTT wComparator initialBuilderState
        ⟨1, 1, "main"⟩ wSampleEntry 4096 false 100).1.total_error_callchains = 1
    ∧ ReportLine.errorCallchainsLine 1
        ∈ printPipeline false ⟨"cycles", 0, 0, false⟩ ⟨[], 2, 150, 1, "cycles"⟩ := by
  have h := unknown_dso_callchain_error wUnknownTT wComparator initialBuilderState
    ⟨1, 1, "main"⟩ wSampleEntry 4096 false 100 ⟨[], 2, 150, 1, "cycles"⟩
    ⟨"cycles", 0, 0, false⟩ false rfl
  refine ⟨by rw [h.1], by rw [h.1]; decide, ?_⟩
  exact h.2.2.mpr (by decide)

/-- Helper: for a recognized sort key, validation fails exactly when it is a
branch key and -b is absent. -/
theorem sortKeyOk_of_recognized (b : Bool) (k : String) (hk : k ∈ recognizedSortKeys) :
    sortKeyOk b k = false ↔ (b = false ∧ k ∈ branch_sort_keys) := by
  simp only [recognizedSortKeys, List.mem_cons, List.not_mem_nil, or_false] at hk
  rcases hk with rfl | rfl | rfl | rfl | rfl | rfl | rfl | rfl | rfl | rfl <;>
    cases b <;> decide

/-- C6 counterexample: the sort list ["no_such_key"] contains no branch sort
key, yet BuildSampleComparatorAndDisplayer rejects it with and without -b, so
option parsing does not fail only on branch keys used without -b. -/
theorem branch_sort_key_counterexample :
    buildComparatorOk false ["no_such_key"] = false
    ∧ buildComparatorOk true ["no_such_key"] = false
    ∧ "no_such_key" ∉ branch_sort_keys := by
  decide

/-- C6 (amended): over sort lists made of recognized keys, option parsing
fails iff the list contains a branch key while -b is absent; in particular
with -b present every recognized list is accepted. -/
theorem branch_sort_keys_require_b (b : Bool) (keys : List String)
    (hrec : ∀ k ∈ keys, k ∈ recognizedSortKeys) :
    (buildComparatorOk b keys = false ↔
      (b = false ∧ ∃ k ∈ keys, k ∈ branch_sort_keys))
    ∧ buildComparatorOk true keys = true := by
  have main : ∀ (bb : Bool) (ks : List String), (∀ k ∈ ks, k ∈ recognizedSortKeys) →
      (buildComparatorOk bb ks = false ↔
        (bb = false ∧ ∃ k ∈ ks, k ∈ branch_sort_keys)) := by
    intro bb ks
    induction ks with
    | nil => intro _; simp [buildComparatorOk]
    | cons k ks ih =>
      intro hr
      have hk := hr k (by simp)
      have ihr := ih (fun x hx => hr x (List.mem_cons_of_mem k hx))
      simp only [buildComparatorOk, List.all_cons, Bool.and_eq_false_iff] at ihr ⊢
      rw [sortKeyOk_of_recognized bb k hk, ihr]
      constructor
      · rintro (⟨hb, hmem⟩ | ⟨hb, x, hx, hxb⟩)
        · exact ⟨hb, k, by simp, hmem⟩
        · exact ⟨hb, x, List.mem_cons_of_mem k hx, hxb⟩
      · rintro ⟨hb, x, hx, hxb⟩
        rcases List.mem_cons.mp hx with h | h
        · exact Or.inl ⟨hb, h ▸ hxb⟩
        · exact Or.inr ⟨hb, x, h, hxb⟩
  refine ⟨main b keys hrec, ?_⟩
  cases hcase : buildComparatorOk true keys
  · have := (main true keys hrec).mp hcase
    exact absurd this.1 (by simp)
  · rfl

/-- Witness for the amended C6: ["comm", "dso_from"] is rejected without -b
and accepted with it. -/
theorem branch_sort_keys_require_b_witness :
    buildComparatorOk false ["comm", "dso_from"] = false
    ∧ buildComparatorOk true ["comm", "dso_from"] = true := by
  have h := branch_sort_keys_require_b false ["comm", "dso_from"] (by decide)
  exact ⟨h.1.mpr (by decide), h.2⟩

/-- Helper: the sched-switch scan finds nothing when no attribute carries the
name. -/
theorem findSchedSwitchIdx_none (attrs : List EventAttrWithName)
    (h : ∀ a ∈ attrs, a.name ≠ "sched:sched_switch") :
    findSchedSwitchIdx attrs = none := by
  induction attrs with
  | nil => rfl
  | cons a rest ih =>
    have ha := h a (by simp)
    simp [findSchedSwitchIdx, ha, ih (fun x hx => h x (List.mem_cons_of_mem a hx))]

/-- C7: with trace_offcpu declared in the meta info but no attribute named
sched:sched_switch, reading the event attributes fails (the source's
CHECK_NE aborts the process at that point), so the run ends in a failure exit
before PrintReport emits any line. -/
theorem offcpu_missing_sched_switch_fails (b : Bool) (rf : RecordFileData)
    (trees : List SampleTree) (cmdline arch : String)
    (htoff : rf.trace_offcpu_meta = true)
    (hname : ∀ a ∈ rf.event_attrs, a.name ≠ "sched:sched_switch") :
    findSchedSwitchIdx rf.event_attrs = none
    ∧ ReadEventAttrFromRecordFile false true rf.event_attrs
        = Except.error "CHECK failed: no sched:sched_switch attr in record file"
    ∧ (∀ lines : List ReportLine,
        runReport b rf trees cmdline arch ≠ Except.ok lines) := by
  have hidx := findSchedSwitchIdx_none rf.event_attrs hname
  refine ⟨hidx, by simp [ReadEventAttrFromRecordFile, hidx], ?_⟩
  intro lines
  unfold runReport
  rw [htoff]
  unfold ReadEventAttrFromRecordFile
  by_cases hb : (b : Prop) ∧ ¬(rf.event_attrs.all fun a => a.has_branch_stack) = true
  · simp [hb]
  · simp only [hb, if_false, if_true, hidx]
    simp

/-- Witness for C7: a record file declaring trace_offcpu with a single
cpu-clock attribute makes the run fail. -/
theorem offcpu_missing_sched_switch_fails_witness :
    ReadEventAttrFromRecordFile false true [⟨"cpu-clock", 1, 0, false⟩]
      = Except.error "CHECK failed: no sched:sched_switch attr in record file"
    ∧ runReport false ⟨true, [⟨"cpu-clock", 1, 0, false⟩]⟩ [] "" "" ≠ Except.ok [] := by
  have h := offcpu_missing_sched_switch_fails false ⟨true, [⟨"cpu-clock", 1, 0, false⟩]⟩
    [] "" "" rfl (by decide)
  exact ⟨h.2.1, h.2.2 []⟩

/-- C9: the -g option, bare or with a callee/caller argument, turns on
call-graph printing and unconditionally also children (accumulated-callchain)
mode; after successful parsing print_callgraph implies accumulate_callchain
even without --children. -/
theorem g_option_forces_children (children : Bool) (g : Option (Option String))
    (opts : ParsedCallgraphOptions)
    (h : parseCallgraphOptions children g = Except.ok opts) :
    (opts.print_callgraph = true → opts.accumulate_callchain = true)
    ∧ (g ≠ none → opts.print_callgraph = true ∧ opts.accumulate_callchain = true) := by
  cases g with
  | none =>
    simp only [parseCallgraphOptions, Except.ok.injEq] at h
    rw [← h]
    exact ⟨fun hp => by simp at hp, fun hg => absurd rfl hg⟩
  | some arg =>
    cases arg with
    | none =>
      simp only [parseCallgraphOptions, Except.ok.injEq] at h
      rw [← h]
      exact ⟨fun _ => rfl, fun _ => ⟨rfl, rfl⟩⟩
    | some s =>
      simp only [parseCallgraphOptions] at h
      split_ifs at h <;> simp only [Except.ok.injEq] at h <;> rw [← h] <;>
        exact ⟨fun _ => rfl, fun _ => ⟨rfl, rfl⟩⟩

/-- The parse result of a bare -g without --children. -/
def wGOpts : ParsedCallgraphOptions :=
  { accumulate_callchain := true, print_callgraph := true, callgraph_show_callee := false }

/-- Witness for C9: a bare -g without --children parses successfully and sets
both print_callgraph and accumulate_callchain. -/
theorem g_option_forces_children_witness :
    parseCallgraphOptions false (some none) = Except.ok wGOpts
    ∧ wGOpts.print_callgraph = true ∧ wGOpts.accumulate_callchain = true := by
  exact ⟨rfl, (g_option_forces_children false (some none) wGOpts rfl).2 (by simp)⟩

/-- Helper: a projection that MergeSample accumulates (period,
accumulated_period or sample_count) sums over an insert-or-merge the same way
as appending the new sample, modulo 2^64. -/
theorem projSum_mergeInto (isSame : SampleEntry → SampleEntry → Bool)
    (proj : SampleEntry → Nat)
    (hproj : ∀ a b : SampleEntry, proj (MergeSample a b) = addU64 (proj a) (proj b))
    (s : SampleEntry) :
    ∀ es : List SampleEntry,
      ((mergeInto isSame es s).map proj).sum % u64Mod
        = ((es.map proj).sum + proj s) % u64Mod := by
  intro es
  induction es with
  | nil => simp [mergeInto]
  | cons e es ih =>
    by_cases h : isSame e s = true
    · simp only [mergeInto, h, if_true, List.map_cons, List.sum_cons, hproj, addU64]
      rw [Nat.mod_add_mod]
      congr 1
      ring
    · have h2 : isSame e s = false := by simpa using h
      simp only [mergeInto, h2, Bool.false_eq_true, if_false, List.map_cons, List.sum_cons]
      rw [Nat.add_mod, ih, ← Nat.add_mod, Nat.add_assoc]

/-- Helper: period sums over an insert-or-merge, modulo 2^64. -/
theorem entryPeriodSum_mergeInto (isSame : SampleEntry → SampleEntry → Bool)
    (s : SampleEntry) (es : List SampleEntry) :
    entryPeriodSum (mergeInto isSame es s) % u64Mod
      = (entryPeriodSum es + s.period) % u64Mod :=
  projSum_mergeInto isSame SampleEntry.period (fun _ _ => rfl) s es

/-- Helper: sample-count sums over an insert-or-merge, modulo 2^64. -/
theorem entrySampleCountSum_mergeInto (isSame : SampleEntry → SampleEntry → Bool)
    (s : SampleEntry) (es : List SampleEntry) :
    entrySampleCountSum (mergeInto isSame es s) % u64Mod
      = (entrySampleCountSum es + s.sample_count) % u64Mod :=
  projSum_mergeInto isSame SampleEntry.sample_count (fun _ _ => rfl) s es

/-- The totals-vs-entries invariant of one builder. -/
def buildInv (st : BuilderState) : Prop :=
  st.total_period = entryPeriodSum st.entries % u64Mod
  ∧ st.total_samples = entrySampleCountSum st.entries % u64Mod

/-- Helper: InsertSample preserves the totals invariant: UpdateSummary adds
the folded sample's own period and count exactly once, matching the merge. -/
theorem buildInv_insert (isSame : SampleEntry → SampleEntry → Bool) (f : Filters)
    (st : BuilderState) (s : SampleEntry) (h : buildInv st) :
    buildInv (InsertSample isSame f st s) := by
  unfold InsertSample
  by_cases hf : FilterSample f s = true
  · simp only [hf, if_true, UpdateSummary]
    constructor
    · show addU64 st.total_period s.period
        = entryPeriodSum (mergeInto isSame st.entries s) % u64Mod
      rw [entryPeriodSum_mergeInto, addU64, h.1, Nat.mod_add_mod]
    · show addU64 st.total_samples s.sample_count
        = entrySampleCountSum (mergeInto isSame st.entries s) % u64Mod
      rw [entrySampleCountSum_mergeInto, addU64, h.2, Nat.mod_add_mod]
  · simpa [hf] using h

/-- Helper: callchain sample creation preserves the totals invariant: its
entries carry period 0 and sample_count 0 and the summary is not updated. -/
theorem buildInv_callchain (tt : ThreadTree) (isSame : SampleEntry → SampleEntry → Bool)
    (st : BuilderState) (thread : ThreadEntry) (sample : SampleEntry) (ip : Nat)
    (in_kernel : Bool) (acc_info : Nat) (h : buildInv st) :
    buildInv (CreateCallChainSample tt isSame st thread sample ip in_kernel acc_info).1 := by
  unfold CreateCallChainSample
  by_cases hu : tt.isUnknownDso (tt.findMap thread ip in_kernel).dso = true
  · simpa [hu, buildInv] using h
  · simp only [hu, Bool.false_eq_true, if_false, InsertCallChainSample]
    constructor
    · show st.total_period = entryPeriodSum (mergeInto isSame st.entries _) % u64Mod
      rw [entryPeriodSum_mergeInto]
      simpa using h.1
    · show st.total_samples = entrySampleCountSum (mergeInto isSame st.entries _) % u64Mod
      rw [entrySampleCountSum_mergeInto]
      simpa using h.2

/-- Helper: the totals invariant holds along any ingestion sequence. -/
theorem buildInv_applyOps (tt : ThreadTree) (isSame : SampleEntry → SampleEntry → Bool)
    (f : Filters) (getPeriod : SampleRecord → Nat) :
    ∀ (ops : List BuilderOp) (st : BuilderState), buildInv st →
      buildInv (applyOps tt isSame f getPeriod st ops) := by
  intro ops
  induction ops with
  | nil => intro st h; exact h
  | cons op rest ih =>
    intro st h
    have hstep : buildInv (applyOp tt isSame f getPeriod st op) := by
      cases op with
      | flat r => exact buildInv_insert isSame f st _ h
      | branch r item => exact buildInv_insert isSame f st _ h
      | callchain thread sample ip in_kernel acc_info =>
        exact buildInv_callchain tt isSame st thread sample ip in_kernel acc_info h
    exact ih (applyOp tt isSame f getPeriod st op) hstep

/-- Helper: total_samples after an ingestion sequence counts the accepted
samples (each folded sample carries sample_count 1). -/
theorem total_samples_counts_accepted (tt : ThreadTree)
    (isSame : SampleEntry → SampleEntry → Bool) (f : Filters)
    (getPeriod : SampleRecord → Nat) :
    ∀ (ops : List BuilderOp) (st : BuilderState), st.total_samples < u64Mod →
      (applyOps tt isSame f getPeriod st ops).total_samples
        = (st.total_samples + acceptedSampleCount tt f getPeriod ops) % u64Mod := by
  intro ops
  induction ops with
  | nil =>
    intro st hst
    simp [applyOps, acceptedSampleCount, Nat.mod_eq_of_lt hst]
  | cons op rest ih =>
    intro st hst
    have hpos : 0 < u64Mod := by decide
    have step :
        (applyOp tt isSame f getPeriod st op).total_samples
          = (if opAccepted tt f getPeriod op then (st.total_samples + 1) % u64Mod
             else st.total_samples) := by
      cases op with
      | flat r =>
        simp only [applyOp, opAccepted, InsertSample, UpdateSummary]
        split_ifs with hf
        · simp [CreateSample, addU64]
        · rfl
      | branch r item =>
        simp only [applyOp, opAccepted, InsertSample, UpdateSummary]
        split_ifs with hf
        · simp [CreateBranchSample, addU64]
        · rfl
      | callchain thread sample ip in_kernel acc_info =>
        simp only [applyOp, opAccepted, CreateCallChainSample, Bool.false_eq_true, if_false]
        split_ifs with hu
        · rfl
        · simp [InsertCallChainSample]
    have hlt : (applyOp tt isSame f getPeriod st op).total_samples < u64Mod := by
      rw [step]
      split_ifs
      · exact Nat.mod_lt _ hpos
      · exact hst
    have hrest := ih (applyOp tt isSame f getPeriod st op) hlt
    show (applyOps tt isSame f getPeriod (applyOp tt isSame f getPeriod st op)
      rest).total_samples = _
    rw [hrest, step]
    by_cases ha : opAccepted tt f getPeriod op = true
    · rw [if_pos ha]
      have hacc : acceptedSampleCount tt f getPeriod (op :: rest)
          = acceptedSampleCount tt f getPeriod rest + 1 := by
        simp [acceptedSampleCount, List.filter_cons, ha]
      rw [hacc, Nat.mod_add_mod]
      congr 1
      omega
    · have ha2 : opAccepted tt f getPeriod op = false := by simpa using ha
      rw [if_neg (by simp [ha2])]
      have hacc : acceptedSampleCount tt f getPeriod (op :: rest)
          = acceptedSampleCount tt f getPeriod rest := by
        simp [acceptedSampleCount, List.filter_cons, ha2]
      rw [hacc]

/-- C8: at the end of any ingestion sequence the pipeline's sample tree has
total_period equal to the (uint64) sum of its entries' periods, total_samples
equal to the (uint64) sum of the entries' sample counts, and total_samples
equal to the number of accepted samples or branch items folded, because
UpdateSummary adds each folded sample's own count and period exactly once. -/
theorem pipeline_totals_invariant (tt : ThreadTree)
    (isSame : SampleEntry → SampleEntry → Bool) (f : Filters)
    (getPeriod : SampleRecord → Nat) (ops : List BuilderOp) (event_name : String) :
    (GetSampleTree (applyOps tt isSame f getPeriod initialBuilderState ops)
        event_name).total_period
      = entryPeriodSum (GetSampleTree (applyOps tt isSame f getPeriod
          initialBuilderState ops) event_name).samples % u64Mod
    ∧ (GetSampleTree (applyOps tt isSame f getPeriod initialBuilderState ops)
        event_name).total_samples
      = entrySampleCountSum (GetSampleTree (applyOps tt isSame f getPeriod
          initialBuilderState ops) event_name).samples % u64Mod
    ∧ (GetSampleTree (applyOps tt isSame f getPeriod initialBuilderState ops)
        event_name).total_samples
      = acceptedSampleCount tt f getPeriod ops % u64Mod := by
  have hinv := buildInv_applyOps tt isSame f getPeriod ops initialBuilderState
    (by constructor <;> rfl)
  have hcnt := total_samples_counts_accepted tt isSame f getPeriod ops
    initialBuilderState (by decide)
  exact ⟨hinv.1, hinv.2, by simpa [initialBuilderState, GetSampleTree] using hcnt⟩

end Simpleperf
